import Mathlib

/-!
Verification of the Azure Service Bus n8n node package: a shallow embedding
of the send path, the message-body normalization pipeline, the session
receiver registry, the trigger's error/retry/shutdown control flow, and the
one-shot receive loop, together with theorems settling the specified claims.

Conventions of the embedding:
* JavaScript runtime values delivered as message bodies are modelled by the
  inductive type `Value` (with `vUndefined` and `vOther` covering the
  non-JSON typeof classes the code branches on).
* A thrown JavaScript exception is modelled by `none` / `Except.error`.
* Receivers are identified by natural numbers; the JS `Map` used as the
  session registry is an association list with `Map.set` replace-or-append
  semantics.
* The JS runtime pieces the code calls into (`JSON.parse`,
  `Buffer.toString('utf8')`) are modelled by executable Lean functions
  (`jsonParse`, `utf8Decode`) covering the fragment the claims exercise:
  whitespace is the JSON whitespace set, numbers are modelled by their
  integer part, string escapes cover the single-character escapes.
-/

/-- JavaScript runtime values as they appear as message bodies.
`vBuf` is a Node `Buffer` (its byte contents); `vObj` is a plain object as
an ordered field list; `vOther` covers values whose `typeof` is none of
`string`, `number`, `boolean`, `object`, `undefined` (functions, symbols,
bigints). -/
inductive Value where
  | vNull
  | vUndefined
  | vBool (b : Bool)
  | vNum (n : Int)
  | vStr (s : String)
  | vArr (elems : List Value)
  | vObj (fields : List (String × Value))
  | vBuf (bytes : List Nat)
  | vOther
deriving Repr

open Value

/-- Left and right curly brace characters (used instead of literals). -/
def lbrace : Char := Char.ofNat 123

def rbrace : Char := Char.ofNat 125

/-- Character for a Unicode scalar value, with U+FFFD for invalid codes. -/
def charOfCode (n : Nat) : Char :=
  if n.isValidChar then Char.ofNat n else Char.ofNat 0xFFFD

/-- Whether a byte is a UTF-8 continuation byte. -/
def isContByte (b : Nat) : Bool := 0x80 ≤ b && b < 0xC0

/-- Fuel-driven UTF-8 decoding with U+FFFD replacement on malformed
sequences, modelling Node's `Buffer.prototype.toString('utf8')`. -/
def utf8DecodeAux : Nat → List Nat → List Char
  | 0, _ => []
  | _ + 1, [] => []
  | f + 1, b :: rest =>
    if b < 0x80 then charOfCode b :: utf8DecodeAux f rest
    else if 0xC0 ≤ b && b < 0xE0 then
      match rest with
      | b2 :: r2 =>
        if isContByte b2 then charOfCode ((b % 0x20) * 0x40 + b2 % 0x40) :: utf8DecodeAux f r2
        else charOfCode 0xFFFD :: utf8DecodeAux f rest
      | [] => [charOfCode 0xFFFD]
    else if 0xE0 ≤ b && b < 0xF0 then
      match rest with
      | b2 :: b3 :: r3 =>
        if isContByte b2 && isContByte b3 then
          charOfCode ((b % 0x10) * 0x1000 + (b2 % 0x40) * 0x40 + b3 % 0x40) :: utf8DecodeAux f r3
        else charOfCode 0xFFFD :: utf8DecodeAux f rest
      | _ => [charOfCode 0xFFFD]
    else if 0xF0 ≤ b && b < 0xF8 then
      match rest with
      | b2 :: b3 :: b4 :: r4 =>
        if isContByte b2 && isContByte b3 && isContByte b4 then
          charOfCode ((b % 0x8) * 0x40000 + (b2 % 0x40) * 0x1000 + (b3 % 0x40) * 0x40 + b4 % 0x40)
            :: utf8DecodeAux f r4
        else charOfCode 0xFFFD :: utf8DecodeAux f rest
      | _ => [charOfCode 0xFFFD]
    else charOfCode 0xFFFD :: utf8DecodeAux f rest

/-- UTF-8 decoding of a byte list, as `Buffer.toString('utf8')`. -/
def utf8Decode (bytes : List Nat) : String := String.mk (utf8DecodeAux (bytes.length + 1) bytes)

/-- JSON whitespace (which coincides with Lean's `Char.isWhitespace` set). -/
def isJsonWs (c : Char) : Bool := c = ' ' || c = '\t' || c = '\n' || c = '\r'

/-- Drop leading JSON whitespace. -/
def skipWs (cs : List Char) : List Char := cs.dropWhile isJsonWs

/-- Single-character JSON string escapes. -/
def escChar (c : Char) : Option Char :=
  if c = '"' then some '"'
  else if c = '\\' then some '\\'
  else if c = '/' then some '/'
  else if c = 'n' then some '\n'
  else if c = 't' then some '\t'
  else if c = 'r' then some '\r'
  else if c = 'b' then some (Char.ofNat 8)
  else if c = 'f' then some (Char.ofNat 12)
  else none

/-- Body of a JSON string literal after the opening quote. -/
def parseJStr : Nat → List Char → Option (List Char × List Char)
  | 0, _ => none
  | _ + 1, [] => none
  | f + 1, c :: rest =>
    if c = '"' then some ([], rest)
    else if c = '\\' then
      match rest with
      | [] => none
      | e :: rest2 =>
        match escChar e with
        | some d => (parseJStr f rest2).map (fun p => (d :: p.1, p.2))
        | none => none
    else (parseJStr f rest).map (fun p => (c :: p.1, p.2))

/-- Numeric value of a decimal digit character. -/
def digitVal (c : Char) : Nat := c.toNat - '0'.toNat

/-- One or more decimal digits. -/
def parseDigits (cs : List Char) : Option (Nat × List Char) :=
  let ds := cs.takeWhile Char.isDigit
  if ds.isEmpty then none
  else some (ds.foldl (fun acc c => acc * 10 + digitVal c) 0, cs.dropWhile Char.isDigit)

/-- Consume a JSON number; the modelled value is its integer part. -/
def parseJNum (cs : List Char) : Option (Int × List Char) :=
  let p := match cs with
    | '-' :: r => (true, r)
    | _ => (false, cs)
  match parseDigits p.2 with
  | none => none
  | some (n, cs2) =>
    let cs3 := match cs2 with
      | '.' :: r =>
        match parseDigits r with
        | some (_, r2) => r2
        | none => cs2
      | _ => cs2
    let cs4 := match cs3 with
      | 'e' :: r | 'E' :: r =>
        let r1 := match r with
          | '+' :: r2 => r2
          | '-' :: r2 => r2
          | _ => r
        match parseDigits r1 with
        | some (_, r2) => r2
        | none => cs3
      | _ => cs3
    some (if p.1 then -(n : Int) else (n : Int), cs4)

/-- Expect a fixed literal (the tails of `true`, `false`, `null`). -/
def expectLit (lit : List Char) (cs : List Char) : Option (List Char) :=
  if cs.take lit.length = lit then some (cs.drop lit.length) else none

mutual

/-- One JSON value, after skipping leading whitespace. -/
def parseValueF : Nat → List Char → Option (Value × List Char)
  | 0, _ => none
  | f + 1, cs =>
    match skipWs cs with
    | [] => none
    | c :: r =>
      if c = lbrace then (parseMembersF f r).map (fun p => (vObj p.1, p.2))
      else if c = '[' then (parseElemsF f r).map (fun p => (vArr p.1, p.2))
      else if c = '"' then (parseJStr f r).map (fun p => (vStr (String.mk p.1), p.2))
      else if c = 't' then (expectLit ['r', 'u', 'e'] r).map (fun r2 => (vBool true, r2))
      else if c = 'f' then (expectLit ['a', 'l', 's', 'e'] r).map (fun r2 => (vBool false, r2))
      else if c = 'n' then (expectLit ['u', 'l', 'l'] r).map (fun r2 => (vNull, r2))
      else if c = '-' || c.isDigit then (parseJNum (c :: r)).map (fun p => (vNum p.1, p.2))
      else none

/-- Members of a JSON object, after the opening brace has been consumed. -/
def parseMembersF : Nat → List Char → Option (List (String × Value) × List Char)
  | 0, _ => none
  | f + 1, cs =>
    match skipWs cs with
    | [] => none
    | c :: r =>
      if c = rbrace then some ([], r)
      else if c = '"' then
        match parseJStr f r with
        | none => none
        | some (key, r2) =>
          match skipWs r2 with
          | ':' :: r3 =>
            match parseValueF f r3 with
            | none => none
            | some (v, r4) =>
              match skipWs r4 with
              | ',' :: r5 => (parseMembersRestF f r5).map
                  (fun p => ((String.mk key, v) :: p.1, p.2))
              | d :: r5 => if d = rbrace then some ([(String.mk key, v)], r5) else none
              | _ => none
          | _ => none
      else none

/-- Members after a comma; a member must follow (no trailing comma). -/
def parseMembersRestF : Nat → List Char → Option (List (String × Value) × List Char)
  | 0, _ => none
  | f + 1, cs =>
    match skipWs cs with
    | c :: r =>
      if c = '"' then
        match parseJStr f r with
        | none => none
        | some (key, r2) =>
          match skipWs r2 with
          | ':' :: r3 =>
            match parseValueF f r3 with
            | none => none
            | some (v, r4) =>
              match skipWs r4 with
              | ',' :: r5 => (parseMembersRestF f r5).map
                  (fun p => ((String.mk key, v) :: p.1, p.2))
              | d :: r5 => if d = rbrace then some ([(String.mk key, v)], r5) else none
              | _ => none
          | _ => none
      else none
    | [] => none

/-- Elements of a JSON array, after the opening bracket has been consumed. -/
def parseElemsF : Nat → List Char → Option (List Value × List Char)
  | 0, _ => none
  | f + 1, cs =>
    match skipWs cs with
    | ']' :: r => some ([], r)
    | _ =>
      match parseValueF f cs with
      | none => none
      | some (v, r2) =>
        match skipWs r2 with
        | ',' :: r3 => (parseElemsRestF f r3).map (fun p => (v :: p.1, p.2))
        | ']' :: r3 => some ([v], r3)
        | _ => none

/-- Elements after a comma; an element must follow. -/
def parseElemsRestF : Nat → List Char → Option (List Value × List Char)
  | 0, _ => none
  | f + 1, cs =>
    match parseValueF f cs with
    | none => none
    | some (v, r2) =>
      match skipWs r2 with
      | ',' :: r3 => (parseElemsRestF f r3).map (fun p => (v :: p.1, p.2))
      | ']' :: r3 => some ([v], r3)
      | _ => none

end

/-- Model of the JavaScript runtime's strict `JSON.parse`: one JSON document
with nothing but whitespace after it; `none` models a thrown `SyntaxError`. -/
def jsonParse (s : String) : Option Value :=
  match parseValueF (4 * s.data.length + 16) s.data with
  | some (v, rest) => if skipWs rest = [] then some v else none
  | none => none

/-! ## Message body normalization

Translated from the identical normalization blocks in
`AzureServiceBusTrigger` `processMessage` and in the `receiveMessages`
branch of `AzureServiceBus.node.ts` `execute`:

1. if the body is an object with `type === 'Buffer'`, decode
   `Buffer.from(body.data)` as UTF-8;
2. else if it is a `Buffer`, decode it as UTF-8;
3. then, if the (possibly decoded) body is a string whose trimmed form
   starts with a left brace, try `JSON.parse`, keeping the string on
   failure. -/

/-- First field with the given name, as JS property lookup. -/
def lookupField : List (String × Value) → String → Option Value
  | [], _ => none
  | (k, v) :: rest, key => if k = key then some v else lookupField rest key

/-- Whether the object's `type` property is the string `'Buffer'`
(the guard `messageBody.type === 'Buffer'` of the wrapper branch). -/
def typeIsBuffer (fields : List (String × Value)) : Bool :=
  match lookupField fields "type" with
  | some (vStr s) => s = "Buffer"
  | _ => false

/-- Byte extracted from one entry of a Buffer-wrapper `data` array
(`Buffer.from` keeps numeric entries modulo 256; the model sends
non-numeric entries to 0). -/
def toByte : Value → Nat
  | vNum n => (n % 256).toNat
  | _ => 0

/-- Guard `messageBody.trim().startsWith(lbrace)` of the JSON step. -/
def trimmedStartsWithBrace (s : String) : Bool :=
  match skipWs s.data with
  | c :: _ => c = lbrace
  | [] => false

/-- JSON step of the pipeline: on a string whose trimmed form starts with a
left brace attempt `JSON.parse`, keeping the original string unchanged when
parsing fails; any other string is left alone. -/
def normalizeString (s : String) : Value :=
  if trimmedStartsWithBrace s then
    match jsonParse s with
    | some v => v
    | none => vStr s
  else vStr s

/-- Buffer-conversion step (the first two `if` branches). `none` models the
`TypeError` thrown by `Buffer.from` on a wrapper whose `data` property is
unusable; every other value passes through (decoded for buffers). -/
def bufferStep : Value → Option Value
  | vObj fields =>
    if typeIsBuffer fields then
      match lookupField fields "data" with
      | some (vArr es) => some (vStr (utf8Decode (es.map toByte)))
      | some (vStr s) => some (vStr s)
      | some (vBuf bs) => some (vStr (utf8Decode bs))
      | _ => none
    else some (vObj fields)
  | vBuf bytes => some (vStr (utf8Decode bytes))
  | v => some v

/-- Full body normalization, as performed on each received message by both
the trigger and the one-shot receive loop. -/
def normalizeBody (body : Value) : Option Value :=
  match bufferStep body with
  | none => none
  | some (vStr s) => some (normalizeString s)
  | some v => some v

/-- Whether a value is an object carrying the Buffer-wrapper tag — exactly
the values the wrapper branch of the normalizer fires on. -/
def hasBufferTag : Value → Bool
  | vObj fields => typeIsBuffer fields
  | _ => false

/-! ## Send path (`isEmptyMessageBody` and the sendMessage loops) -/

/-- Executable model of JavaScript's `String.prototype.trim` (over the
common whitespace set, which is also Lean's `Char.isWhitespace` set). -/
def jsTrim (s : String) : String :=
  String.mk (((s.data.dropWhile isJsonWs).reverse.dropWhile isJsonWs).reverse)

/-- Translated from `isEmptyMessageBody` in `AzureServiceBus.node.ts`:
null and undefined are empty; a string is empty iff its trimmed form is;
numbers, booleans and objects (including arrays and buffers, whose JS
`typeof` is `'object'`) are never empty; every remaining `typeof` class
falls through to `return true`. -/
def isEmptyMessageBody : Value → Bool
  | vNull => true
  | vUndefined => true
  | vStr s => jsTrim s = ""
  | vNum _ => false
  | vBool _ => false
  | vObj _ => false
  | vArr _ => false
  | vBuf _ => false
  | vOther => true

/-- Input item of one sendMessage iteration (node parameters per item). -/
structure SendItem where
  body : Value
  messageId : String
  sessionId : String
deriving Repr

/-- Message constructed by the sendMessage loop for one item. -/
structure SentMessage where
  body : Value
  contentType : String
  messageId : Option String
  sessionId : Option String
deriving Repr

/-- Message built for one item: `messageId`/`sessionId` are attached only
when the parameter is truthy with non-blank trim. -/
def buildMessage (it : SendItem) (contentType : String) : SentMessage :=
  { body := it.body
    contentType := contentType
    messageId := if it.messageId ≠ "" ∧ jsTrim it.messageId ≠ "" then some it.messageId else none
    sessionId := if it.sessionId ≠ "" ∧ jsTrim it.sessionId ≠ "" then some it.sessionId else none }

/-- The per-item body of the sendMessage loops (queue and topic branches of
`execute` run this identical check-then-send logic): an empty body throws
`NodeOperationError` with the fixed text, aborting the remaining items;
otherwise the built message is sent. -/
def sendLoop (contentType : String) : List SendItem → Except String (List SentMessage)
  | [] => .ok []
  | it :: rest =>
    if isEmptyMessageBody it.body then .error "Message Body cannot be empty"
    else
      match sendLoop contentType rest with
      | .ok ms => .ok (buildMessage it contentType :: ms)
      | .error e => .error e

/-! ## Session registry (the `activeReceivers` JS `Map`)

Receivers are identified by `Nat`; the registry is an association list with
`Map.set` replace-or-append semantics, `Map.delete` of the first matching
key, and `Map.clear`. -/

/-- Registry from session id to receiver id. -/
abbrev Registry := List (String × Nat)

/-- Lookup as `Map.get`. -/
def mapGet : Registry → String → Option Nat
  | [], _ => none
  | (k, v) :: rest, key => if k = key then some v else mapGet rest key

/-- Insert as `Map.set`: replace in place, else append. -/
def mapSet : Registry → String → Nat → Registry
  | [], key, r => [(key, r)]
  | (k, v) :: rest, key, r =>
    if k = key then (key, r) :: rest else (k, v) :: mapSet rest key r

/-- Session ids currently registered. -/
def regKeys (m : Registry) : List String := m.map Prod.fst

/-- Receivers currently registered, in iteration order. -/
def regReceivers (m : Registry) : List Nat := m.map Prod.snd

/-- Eviction loop of the per-subscription `processError` wrapper in
`startSessionHandling`: delete the first entry holding the given receiver,
then `break`. -/
def evictReceiver : Registry → Nat → Registry
  | [], _ => []
  | (k, v) :: rest, r => if v = r then rest else (k, v) :: evictReceiver rest r

/-! ## Session negotiation (`getOrCreateSessionReceiver`) -/

/-- State threaded through the trigger's session handling: the registry,
a fresh-receiver allocator standing for new SDK receiver instances, and
counters of broker acceptance round-trips. -/
structure NegotiatorState where
  activeReceivers : Registry
  nextReceiverId : Nat
  acceptSessionCalls : Nat
  acceptNextCalls : Nat
deriving Repr

/-- Translated from `getOrCreateSessionReceiver` in the trigger node.
In `'specific'` mode, a registered receiver for `specificSessionId` is
returned as is; otherwise `acceptSession` is called (`specificOk` models
the broker's answer), the new receiver is registered and returned, and a
broker failure is rethrown (`none`). In `'any'` mode `acceptNextSession`
is called (`nextResult` models the granted session id, `none` a failure)
and the receiver is registered under the accepted id. Any other mode
throws. The queue and topic-subscription branches differ only in the
entity arguments passed to the broker and are modelled uniformly. -/
def getOrCreateSessionReceiver (sessionMode specificSessionId : String)
    (specificOk : Bool) (nextResult : Option String) (st : NegotiatorState) :
    Option Nat × NegotiatorState :=
  if sessionMode = "specific" then
    match mapGet st.activeReceivers specificSessionId with
    | some r => (some r, st)
    | none =>
      let st1 := { st with acceptSessionCalls := st.acceptSessionCalls + 1 }
      if specificOk then
        let r := st.nextReceiverId
        (some r, { st1 with
          activeReceivers := mapSet st1.activeReceivers specificSessionId r
          nextReceiverId := r + 1 })
      else (none, st1)
  else if sessionMode = "any" then
    let st1 := { st with acceptNextCalls := st.acceptNextCalls + 1 }
    match nextResult with
    | some sid =>
      let r := st.nextReceiverId
      (some r, { st1 with
        activeReceivers := mapSet st1.activeReceivers sid r
        nextReceiverId := r + 1 })
    | none => (none, st1)
  else (none, st)

/-! ## Error path (`processError`) -/

/-- Observable state of the error path: the registry plus the receivers on
which `close()` has been invoked, in call order. -/
structure ErrorPathState where
  activeReceivers : Registry
  closeCalls : List Nat
deriving Repr

/-- Result of `receiver.close()`; `closeFails` selects the receivers whose
close throws. -/
def closeReceiver (closeFails : Nat → Bool) (r : Nat) : Except Unit Unit :=
  if closeFails r then .error () else .ok ()

/-- Translated from `processError` in the trigger node: with a session mode
and a session receiver manager present, every registered receiver is
closed inside `try..catch` (a throwing close is logged and swallowed — the
`catch` discards `closeReceiver`'s outcome, so the resulting state does not
depend on `closeFails`) and the registry is cleared; with `sessionMode`
`'none'` (a plain receiver) nothing is recreated or evicted. -/
def processError (closeFails : Nat → Bool) (sessionMode : String) (hasManager : Bool)
    (st : ErrorPathState) : ErrorPathState :=
  if sessionMode ≠ "none" ∧ hasManager then
    let closed := st.activeReceivers.foldl
      (fun acc p =>
        match closeReceiver closeFails p.2 with
        | .ok _ => acc ++ [p.2]
        | .error _ => acc ++ [p.2])
      st.closeCalls
    { activeReceivers := [], closeCalls := closed }
  else st

/-- Per-subscription `processError` wrapper installed by
`startSessionHandling`: run `processError`, then delete the entry holding
the erroring receiver (a no-op after the clear). -/
def sessionSubscriptionError (closeFails : Nat → Bool) (sessionMode : String)
    (erroringReceiver : Nat) (st : ErrorPathState) : ErrorPathState :=
  let st1 := processError closeFails sessionMode true st
  { st1 with activeReceivers := evictReceiver st1.activeReceivers erroringReceiver }

/-! ## Shutdown (`closeFunction`) -/

/-- Observable state of shutdown: the `receivers` array of plain receivers
(a `const` array that is never cleared), the session registry, receiver
`close()` invocations in order, and `serviceBusClient.close()` counts. -/
structure ShutdownState where
  plainReceivers : List Nat
  activeReceivers : Registry
  closeCalls : List Nat
  clientCloseCalls : Nat
deriving Repr

/-- Plain-receiver loop of `closeFunction`: these closes are not guarded
per entry, so a throwing close aborts to the outer `catch` (modelled as
`Except.error` carrying the state reached so far). -/
def closePlainLoop (closeFails : Nat → Bool) :
    List Nat → ShutdownState → Except ShutdownState ShutdownState
  | [], st => .ok st
  | r :: rest, st =>
    let st1 := { st with closeCalls := st.closeCalls ++ [r] }
    match closeReceiver closeFails r with
    | .ok _ => closePlainLoop closeFails rest st1
    | .error _ => .error st1

/-- Translated from `closeFunction` in the trigger node: close every plain
receiver (unguarded), then close every registered session receiver inside
a per-entry `try..catch` (errors logged, not raised), clear the registry,
then close the client; the whole body sits in an outer `try..catch`, so the
function itself never throws. -/
def closeFunction (closeFails : Nat → Bool) (st : ShutdownState) : ShutdownState :=
  match closePlainLoop closeFails st.plainReceivers st with
  | .error stErr => stErr
  | .ok st1 =>
    let st2 := st1.activeReceivers.foldl
      (fun acc p =>
        match closeReceiver closeFails p.2 with
        | .ok _ => { acc with closeCalls := acc.closeCalls ++ [p.2] }
        | .error _ => { acc with closeCalls := acc.closeCalls ++ [p.2] })
      st1
    let st3 := { st2 with activeReceivers := ([] : Registry) }
    { st3 with clientCloseCalls := st3.clientCloseCalls + 1 }

/-! ## Delivered messages and enriched records -/

/-- One broker delivery (`ServiceBusReceivedMessage`), with the fields the
receive paths read. -/
structure Msg where
  messageId : String
  body : Value
  contentType : Option String
  enqueuedTimeUtc : Option String
  applicationProperties : Option (List (String × Value))
  deliveryCount : Nat
  sequenceNumber : Option Int
  sessionId : Option String
deriving Repr

/-- The `sessionInfo` object attached to session-bound records. -/
structure SessionInfo where
  sessionId : String
  sessionState : Value
  isSessionMessage : Bool
deriving Repr

/-- Record pushed to `returnData` by the `receiveMessages` branch of
`execute` (note: `applicationProperties` is passed through without the
`|| \x7b\x7d` default used by the trigger). -/
structure ExecRecord where
  messageId : String
  body : Value
  contentType : Option String
  enqueuedTimeUtc : Option String
  applicationProperties : Option (List (String × Value))
  deliveryCount : Nat
  sequenceNumber : Option String
  sessionId : Option String
  sessionInfo : Option SessionInfo
deriving Repr

/-- Record emitted to the workflow by the trigger's `processMessage`
(with the `|| \x7b\x7d` default on `applicationProperties` and the extra
`receivedAt`/`entityName`/`resource`/`sessionMode` fields). -/
structure TriggerRecord where
  messageId : String
  body : Value
  contentType : Option String
  enqueuedTimeUtc : Option String
  applicationProperties : List (String × Value)
  deliveryCount : Nat
  sequenceNumber : Option String
  sessionId : Option String
  receivedAt : String
  entityName : String
  resource : String
  sessionMode : String
  sessionInfo : Option SessionInfo
deriving Repr

/-! ## One-shot receive loop (`receiveMessages` branch of `execute`) -/

/-- Events observable at the broker/sink boundary of the one-shot loop:
a record pushed to `returnData`, and a `completeMessage` call. -/
inductive REv where
  | push (mid : String)
  | complete (mid : String)
deriving Repr, DecidableEq

/-- The `sessionInfo` attachment of the one-shot loop: present only when
`isSessionReceiver && currentSessionId` (a truthy, hence non-empty, id). -/
def execSessionInfo (isSessionReceiver : Bool) (currentSessionId : Option String)
    (currentSessionState : Value) : Option SessionInfo :=
  match currentSessionId with
  | some sid =>
    if isSessionReceiver ∧ sid ≠ "" then
      some { sessionId := sid, sessionState := currentSessionState, isSessionMessage := true }
    else none
  | none => none

/-- Translated from the per-message `for` loop of `receiveMessages`: each
message's body is normalized (a throwing normalization aborts to the outer
`catch`), the enriched record is pushed, and — exactly when `receiveMode`
is `'peekLock'` — `completeMessage` is called, after the push. -/
def execReceiveLoop (receiveMode : String) (isSessionReceiver : Bool)
    (currentSessionId : Option String) (currentSessionState : Value) :
    List Msg → Except Unit (List ExecRecord × List REv)
  | [] => .ok ([], [])
  | m :: rest =>
    match normalizeBody m.body with
    | none => .error ()
    | some nb =>
      let r : ExecRecord :=
        { messageId := m.messageId
          body := nb
          contentType := m.contentType
          enqueuedTimeUtc := m.enqueuedTimeUtc
          applicationProperties := m.applicationProperties
          deliveryCount := m.deliveryCount
          sequenceNumber := m.sequenceNumber.map (fun n => toString n)
          sessionId := m.sessionId
          sessionInfo := execSessionInfo isSessionReceiver currentSessionId currentSessionState }
      let evs := REv.push m.messageId ::
        (if receiveMode = "peekLock" then [REv.complete m.messageId] else [])
      match execReceiveLoop receiveMode isSessionReceiver currentSessionId currentSessionState rest with
      | .ok (rs, es) => .ok (r :: rs, evs ++ es)
      | .error e => .error e

/-- Session-state read preceding the loop (`manageSessionState` branch):
`currentSessionState` is the value read by `getSessionState`, or `null`
when the read throws — the failure is caught and does not propagate. -/
def execSessionStateRead (stateResult : Except Unit Value) : Value :=
  match stateResult with
  | .ok v => v
  | .error _ => vNull

/-! ## Trigger dispatch (`processMessage`) -/

/-- Events observable at the sink boundary of the trigger: an emission to
the workflow, and (never produced by this path) a `completeMessage` call. -/
inductive TEv where
  | emit (mid : String)
  | complete (mid : String)
deriving Repr, DecidableEq

/-- The receiver handed to `processMessage`: a plain receiver has no
`sessionId` property; a session receiver carries its session id. -/
inductive ReceiverKind where
  | plain
  | session (sid : String)
deriving Repr, DecidableEq

/-- Translated from the trigger's `processMessage`: normalize the body
(a throwing normalization rejects the call before any emission), build the
record, and — when the session mode is not `'none'` and the receiver has a
`sessionId` property — attach `sessionInfo`, with `sessionState` read via
`getSessionState` and degraded to `null` when that read throws; finally
emit the record exactly once. The trigger contains no `completeMessage`
call: message settlement is governed solely by the `autoCompleteMessages`
flag handed to `subscribe`. -/
def processMessage (sessionMode entityName resource receivedAt : String)
    (m : Msg) (recv : ReceiverKind) (stateResult : Except Unit Value) :
    Except Unit (TriggerRecord × List TEv) :=
  match normalizeBody m.body with
  | none => .error ()
  | some nb =>
    let base : TriggerRecord :=
      { messageId := m.messageId
        body := nb
        contentType := m.contentType
        enqueuedTimeUtc := m.enqueuedTimeUtc
        applicationProperties := m.applicationProperties.getD []
        deliveryCount := m.deliveryCount
        sequenceNumber := m.sequenceNumber.map (fun n => toString n)
        sessionId := m.sessionId
        receivedAt := receivedAt
        entityName := entityName
        resource := resource
        sessionMode := sessionMode
        sessionInfo := none }
    let record :=
      match recv with
      | .session sid =>
        if sessionMode ≠ "none" then
          let info : SessionInfo :=
            { sessionId := sid
              sessionState := execSessionStateRead stateResult
              isSessionMessage := true }
          { base with sessionInfo := some info }
        else base
      | .plain => base
    .ok (record, [TEv.emit m.messageId])

/-- Trigger-side event trace for one delivery. The `autoComplete` node
parameter is threaded through untouched because the source's
`processMessage` never consults it — it is only forwarded to the SDK's
`subscribe` options as `autoCompleteMessages`. -/
def triggerDeliveryEvents (autoComplete : Bool) (sessionMode entityName resource receivedAt : String)
    (m : Msg) (recv : ReceiverKind) (stateResult : Except Unit Value) : List TEv :=
  match processMessage sessionMode entityName resource receivedAt m recv stateResult with
  | .ok (_, evs) => evs
  | .error _ => []

/-! ## Session handling loop (`startSessionHandling`) -/

/-- Events of the session handling loop: a `getOrCreateSessionReceiver`
acceptance attempt in `'specific'` mode (with the constant configured
session id) or `'any'` mode, a successful `subscribe` installation, a
`setTimeout` delay in milliseconds, and the `break` that leaves the loop. -/
inductive SEv where
  | acceptSpecific (sid : String) (ok : Bool)
  | acceptNext (ok : Bool)
  | installed
  | exited
  | delayMs (n : Nat)
deriving Repr, DecidableEq

/-- Translated from the `while (true)` loop of `startSessionHandling`,
with `accept k` the broker's answer to the loop's `k`-th acceptance
attempt and fuel bounding the observed portion of the unbounded loop:
on success, `subscribe` is installed, then `'specific'` mode breaks out of
the loop while `'any'` mode sleeps 1000 ms and iterates; a failed
acceptance is caught, sleeps 5000 ms and iterates. -/
def startSessionHandling (sessionMode specificSessionId : String) (accept : Nat → Bool) :
    Nat → Nat → List SEv
  | 0, _ => []
  | f + 1, k =>
    let ok := accept k
    let acc := if sessionMode = "specific" then SEv.acceptSpecific specificSessionId ok
      else SEv.acceptNext ok
    if ok then
      if sessionMode = "specific" then [acc, SEv.installed, SEv.exited]
      else acc :: SEv.installed :: SEv.delayMs 1000 ::
        startSessionHandling sessionMode specificSessionId accept f (k + 1)
    else acc :: SEv.delayMs 5000 ::
      startSessionHandling sessionMode specificSessionId accept f (k + 1)

/-! ## Helper lemmas -/

/-- Lookup after `Map.set` of the same key. -/
lemma mapGet_mapSet_self (m : Registry) (k : String) (r : Nat) :
    mapGet (mapSet m k r) k = some r := by
  induction m with
  | nil => simp [mapSet, mapGet]
  | cons p rest ih =>
    by_cases h : p.1 = k
    · simp [mapSet, h, mapGet]
    · simp [mapSet, h, mapGet, ih]

/-- Membership in the keys after `Map.set`. -/
lemma mem_regKeys_mapSet (m : Registry) (k : String) (r : Nat) (x : String) :
    x ∈ regKeys (mapSet m k r) ↔ x ∈ regKeys m ∨ x = k := by
  induction m with
  | nil => simp [mapSet, regKeys]
  | cons p rest ih =>
    by_cases h : p.1 = k
    · subst h
      simp [mapSet, regKeys, List.mem_cons]
      tauto
    · simp only [mapSet, if_neg h, regKeys, List.map_cons, List.mem_cons] at ih ⊢
      rw [ih]
      tauto

/-- `Map.set` preserves distinctness of keys. -/
lemma nodup_regKeys_mapSet (m : Registry) (k : String) (r : Nat)
    (h : (regKeys m).Nodup) : (regKeys (mapSet m k r)).Nodup := by
  induction m with
  | nil => simp [mapSet, regKeys]
  | cons p rest ih =>
    simp only [regKeys, List.map_cons, List.nodup_cons] at h
    by_cases hk : p.1 = k
    · subst hk
      simpa [mapSet, regKeys, List.nodup_cons] using h
    · have := ih h.2
      simp only [mapSet, if_neg hk, regKeys, List.map_cons, List.nodup_cons]
      refine ⟨?_, this⟩
      rw [show List.map Prod.fst (mapSet rest k r) = regKeys (mapSet rest k r) from rfl]
      rw [mem_regKeys_mapSet]
      rintro (hx | rfl)
      · exact h.1 hx
      · exact hk rfl

/-- After a `Map.set`, exactly one entry carries the written key. -/
lemma count_regKeys_mapSet (m : Registry) (k : String) (r : Nat)
    (h : (regKeys m).Nodup) : (regKeys (mapSet m k r)).count k = 1 := by
  induction m with
  | nil => simp [mapSet, regKeys]
  | cons p rest ih =>
    simp only [regKeys, List.map_cons, List.nodup_cons] at h
    by_cases hk : p.1 = k
    · subst hk
      have h0 : (List.map Prod.fst rest).count p.1 = 0 := List.count_eq_zero.mpr h.1
      simp [mapSet, regKeys, h0]
    · simp only [mapSet, if_neg hk, regKeys, List.map_cons]
      rw [List.count_cons_of_ne (fun hh => hk hh.symm)]
      exact ih h.2

/-- The eviction loop removes at most one entry, keeping a sublist. -/
lemma evictReceiver_sublist (m : Registry) (r : Nat) :
    (evictReceiver m r).Sublist m := by
  induction m with
  | nil => simp [evictReceiver]
  | cons p rest ih =>
    by_cases h : p.2 = r
    · simpa [evictReceiver, h] using (List.sublist_cons_self p rest)
    · simpa [evictReceiver, h] using ih.cons₂ p

/-- Eviction preserves distinctness of keys. -/
lemma nodup_regKeys_evictReceiver (m : Registry) (r : Nat)
    (h : (regKeys m).Nodup) : (regKeys (evictReceiver m r)).Nodup :=
  h.sublist ((evictReceiver_sublist m r).map Prod.fst)

/-- The swallowed-error close fold of `processError` records a close call
for every entry, in iteration order, whatever `closeReceiver` returns. -/
lemma processError_fold (closeFails : Nat → Bool) (l : Registry) (acc : List Nat) :
    l.foldl (fun acc p =>
        match closeReceiver closeFails p.2 with
        | .ok _ => acc ++ [p.2]
        | .error _ => acc ++ [p.2]) acc
      = acc ++ regReceivers l := by
  induction l generalizing acc with
  | nil => simp [regReceivers]
  | cons p rest ih =>
    cases hc : closeReceiver closeFails p.2 <;>
      simp [List.foldl_cons, hc, ih, regReceivers]

/-- The per-entry guarded session-receiver close fold of `closeFunction`
appends one close call per entry and touches no other field. -/
lemma closeFunction_fold (closeFails : Nat → Bool) (l : Registry) (st : ShutdownState) :
    l.foldl (fun acc p =>
        match closeReceiver closeFails p.2 with
        | .ok _ => { acc with closeCalls := acc.closeCalls ++ [p.2] }
        | .error _ => { acc with closeCalls := acc.closeCalls ++ [p.2] }) st
      = { st with closeCalls := st.closeCalls ++ regReceivers l } := by
  induction l generalizing st with
  | nil => simp [regReceivers]
  | cons p rest ih =>
    cases hc : closeReceiver closeFails p.2 <;>
      simp [List.foldl_cons, hc, ih, regReceivers]

/-- When no plain-receiver close throws, the unguarded plain loop closes
every receiver in order and reaches the rest of `closeFunction`. -/
lemma closePlainLoop_ok (closeFails : Nat → Bool) (l : List Nat) (st : ShutdownState)
    (h : ∀ r ∈ l, closeFails r = false) :
    closePlainLoop closeFails l st = .ok { st with closeCalls := st.closeCalls ++ l } := by
  induction l generalizing st with
  | nil => simp [closePlainLoop]
  | cons r rest ih =>
    have hr : closeFails r = false := h r (List.mem_cons_self r rest)
    have hrest : ∀ x ∈ rest, closeFails x = false := fun x hx => h x (List.mem_cons_of_mem r hx)
    simp [closePlainLoop, closeReceiver, hr, ih _ hrest]

/-! ## Claim theorems -/

/-- C10: for every sendMessage execution (queue or topic use the identical
check), the `'Message Body cannot be empty'` error is raised exactly when
the body is null, undefined, a string with blank trim, or a value outside
the string/number/boolean/object typeof classes; hence `0`, `false` and
every object are never rejected and are sent. -/
theorem C10_empty_body_check :
    (∀ b : Value, isEmptyMessageBody b = true ↔
      (b = vNull ∨ b = vUndefined ∨ (∃ s, b = vStr s ∧ jsTrim s = "") ∨ b = vOther))
    ∧ (∀ ct items, (∀ it ∈ items, isEmptyMessageBody it.body = false) →
        sendLoop ct items = .ok (items.map (fun it => buildMessage it ct)))
    ∧ (∀ ct items, (∃ it ∈ items, isEmptyMessageBody it.body = true) →
        sendLoop ct items = .error "Message Body cannot be empty")
    ∧ isEmptyMessageBody (vNum 0) = false
    ∧ isEmptyMessageBody (vBool false) = false
    ∧ (∀ fs, isEmptyMessageBody (vObj fs) = false) := by
  refine ⟨?_, ?_, ?_, rfl, rfl, fun _ => rfl⟩
  · intro b
    cases b <;> simp [isEmptyMessageBody]
  · intro ct items h
    induction items with
    | nil => simp [sendLoop]
    | cons it rest ih =>
      have h1 : isEmptyMessageBody it.body = false := h it (List.mem_cons_self it rest)
      have h2 := ih (fun x hx => h x (List.mem_cons_of_mem it hx))
      simp [sendLoop, h1, h2]
  · intro ct items h
    induction items with
    | nil => simp at h
    | cons it rest ih =>
      by_cases h1 : isEmptyMessageBody it.body = true
      · simp [sendLoop, h1]
      · rcases h with ⟨x, hx, hxe⟩
        rcases List.mem_cons.mp hx with rfl | hmem
        · exact absurd hxe h1
        · have h2 := ih ⟨x, hmem, hxe⟩
          simp [sendLoop, h1, h2]

/-- Witness for C10 at concrete inputs: a blank string is rejected, while
`0`, `false` and an empty object are sent. -/
theorem C10_empty_body_check_witness :
    (isEmptyMessageBody (vStr "  ") = true)
    ∧ sendLoop "application/json"
        [⟨vNum 0, "", ""⟩, ⟨vBool false, "", ""⟩, ⟨vObj [], "", ""⟩]
      = .ok [⟨vNum 0, "application/json", none, none⟩,
             ⟨vBool false, "application/json", none, none⟩,
             ⟨vObj [], "application/json", none, none⟩]
    ∧ sendLoop "text/plain" [⟨vStr "x", "", ""⟩, ⟨vNull, "", ""⟩]
      = .error "Message Body cannot be empty" := by
  refine ⟨?_, ?_, ?_⟩
  · exact (C10_empty_body_check.1 (vStr "  ")).mpr
      (Or.inr (Or.inr (Or.inl ⟨"  ", rfl, by rfl⟩)))
  · refine C10_empty_body_check.2.1 "application/json" _ ?_
    intro it h
    rcases List.mem_cons.mp h with rfl | h
    · rfl
    rcases List.mem_cons.mp h with rfl | h
    · rfl
    rcases List.mem_cons.mp h with rfl | h
    · rfl
    · simp at h
  · exact C10_empty_body_check.2.2.1 "text/plain" _
      ⟨⟨vNull, "", ""⟩, List.mem_cons_of_mem _ (List.mem_cons_self _ _), rfl⟩

/-- C4: on any error for a session-bound handle, `processError` invokes
`close()` on every receiver tracked in the registry (not only the erroring
one) and clears the registry; close failures are swallowed, so the
resulting state is a plain value independent of which closes throw (the
function is total — nothing propagates); the subscription wrapper's
follow-up eviction leaves the registry empty as well. For a plain handle
(`sessionMode = 'none'`, no session manager) the state is untouched: no
receiver is evicted or recreated. -/
theorem C4_session_error_eviction :
    (∀ closeFails sessionMode st, sessionMode ≠ "none" →
      (processError closeFails sessionMode true st).activeReceivers = []
      ∧ (processError closeFails sessionMode true st).closeCalls
          = st.closeCalls ++ regReceivers st.activeReceivers)
    ∧ (∀ closeFails closeFails' sessionMode hasMgr st,
        processError closeFails sessionMode hasMgr st
          = processError closeFails' sessionMode hasMgr st)
    ∧ (∀ closeFails hasMgr st, processError closeFails "none" hasMgr st = st)
    ∧ (∀ closeFails sessionMode r st, sessionMode ≠ "none" →
        (sessionSubscriptionError closeFails sessionMode r st).activeReceivers = []) := by
  refine ⟨?_, ?_, ?_, ?_⟩
  · intro closeFails sessionMode st h
    simp [processError, h, processError_fold]
  · intro closeFails closeFails' sessionMode hasMgr st
    by_cases h : sessionMode ≠ "none" ∧ hasMgr
    · simp [processError, h, processError_fold]
    · simp [processError, h]
  · intro closeFails hasMgr st
    simp [processError]
  · intro closeFails sessionMode r st h
    simp [sessionSubscriptionError, processError, h, processError_fold, evictReceiver]

/-- Witness for C4: with two tracked session receivers and a close oracle
that throws on the first of them, a session error still closes both and
empties the registry, while a plain-handle error changes nothing. -/
theorem C4_session_error_eviction_witness :
    (processError (fun r => r = 1) "any" true ⟨[("s1", 1), ("s2", 2)], []⟩).activeReceivers = []
    ∧ (processError (fun r => r = 1) "any" true ⟨[("s1", 1), ("s2", 2)], []⟩).closeCalls = [1, 2]
    ∧ processError (fun _ => true) "none" false ⟨[("s1", 1)], [7]⟩ = ⟨[("s1", 1)], [7]⟩ := by
  refine ⟨?_, ?_, ?_⟩
  · exact (C4_session_error_eviction.1 (fun r => r = 1) "any" ⟨[("s1", 1), ("s2", 2)], []⟩
      (by decide)).1
  · exact (C4_session_error_eviction.1 (fun r => r = 1) "any" ⟨[("s1", 1), ("s2", 2)], []⟩
      (by decide)).2
  · exact C4_session_error_eviction.2.2.1 (fun _ => true) false ⟨[("s1", 1)], [7]⟩

/-- After a successful specific-mode call, the requested session id is
registered with the returned receiver. -/
lemma getOrCreate_specific_registers (st st1 : NegotiatorState) (sid : String)
    (ok : Bool) (nr : Option String) (r : Nat)
    (h : getOrCreateSessionReceiver "specific" sid ok nr st = (some r, st1)) :
    mapGet st1.activeReceivers sid = some r := by
  unfold getOrCreateSessionReceiver at h
  simp only [if_pos rfl] at h
  rcases hm : mapGet st.activeReceivers sid with _ | r0
  · rw [hm] at h
    cases ok with
    | true =>
      simp only [if_pos rfl] at h
      obtain ⟨h1, h2⟩ := Prod.mk.injEq .. ▸ h
      cases h1
      rw [← h2]
      exact mapGet_mapSet_self st.activeReceivers sid st.nextReceiverId
    | false => simp at h
  · rw [hm] at h
    obtain ⟨h1, h2⟩ := Prod.mk.injEq .. ▸ h
    cases h1
    rw [← h2]
    exact hm

/-- C3: in specific-session mode, `getOrCreateSessionReceiver` is
idempotent on a registered session: when the registry already holds a
receiver for the requested id, that very receiver is returned and the
state — including the `acceptSession` round-trip counter — is unchanged;
consequently, of two consecutive calls for the same session id with no
intervening release or error, the second returns the identical receiver
instance and performs no second broker acceptance. -/
theorem C3_idempotent_accept :
    (∀ st sid ok nr r, mapGet st.activeReceivers sid = some r →
      getOrCreateSessionReceiver "specific" sid ok nr st = (some r, st))
    ∧ (∀ st st1 sid ok nr ok2 nr2 r,
      getOrCreateSessionReceiver "specific" sid ok nr st = (some r, st1) →
      getOrCreateSessionReceiver "specific" sid ok2 nr2 st1 = (some r, st1)) := by
  have cached : ∀ st sid ok nr r, mapGet st.activeReceivers sid = some r →
      getOrCreateSessionReceiver "specific" sid ok nr st = (some r, st) := by
    intro st sid ok nr r h
    unfold getOrCreateSessionReceiver
    simp [h]
  refine ⟨cached, ?_⟩
  intro st st1 sid ok nr ok2 nr2 r h
  exact cached st1 sid ok2 nr2 r (getOrCreate_specific_registers st st1 sid ok nr r h)

/-- Witness for C3: a first call from an empty registry accepts session
`'S1'` from the broker (one round-trip) and a second call returns the same
receiver with the state untouched. -/
theorem C3_idempotent_accept_witness :
    getOrCreateSessionReceiver "specific" "S1" true none ⟨[], 0, 0, 0⟩
      = (some 0, ⟨[("S1", 0)], 1, 1, 0⟩)
    ∧ getOrCreateSessionReceiver "specific" "S1" false none ⟨[("S1", 0)], 1, 1, 0⟩
      = (some 0, ⟨[("S1", 0)], 1, 1, 0⟩) := by
  constructor
  · rfl
  · exact C3_idempotent_accept.2 ⟨[], 0, 0, 0⟩ ⟨[("S1", 0)], 1, 1, 0⟩ "S1" true none false none 0 rfl

/-- The plain-receiver close loop never touches the session registry
(whether it completes or aborts to the outer catch). -/
lemma closePlainLoop_registry (closeFails : Nat → Bool) (l : List Nat)
    (st st' : ShutdownState)
    (h : closePlainLoop closeFails l st = .ok st' ∨ closePlainLoop closeFails l st = .error st') :
    st'.activeReceivers = st.activeReceivers := by
  induction l generalizing st with
  | nil =>
    rcases h with h | h <;> simp [closePlainLoop] at h <;> simp [← h]
  | cons r rest ih =>
    cases hc : closeReceiver closeFails r with
    | ok u =>
      rcases h with h | h
      · simp only [closePlainLoop, hc] at h
        simpa using ih { st with closeCalls := st.closeCalls ++ [r] } (Or.inl h)
      · simp only [closePlainLoop, hc] at h
        simpa using ih { st with closeCalls := st.closeCalls ++ [r] } (Or.inr h)
    | error u =>
      rcases h with h | h
      · simp [closePlainLoop, hc] at h
      · simp only [closePlainLoop, hc, Except.error.injEq] at h
        simp [← h]

/-- C8: every registry mutation of the engine keeps the session registry a
map — its keys stay pairwise distinct, so at most one live registered
receiver exists per session id — and an insertion leaves exactly one entry
under the inserted id. This holds for the raw `Map.set`, for the eviction
loop, for `getOrCreateSessionReceiver` in every mode (specific acceptance,
next-session acceptance, cache hit, failure), for `processError` and its
subscription wrapper, and for `closeFunction`. -/
theorem C8_registry_invariant :
    (∀ m k v, (regKeys m).Nodup →
      (regKeys (mapSet m k v)).Nodup ∧ (regKeys (mapSet m k v)).count k = 1)
    ∧ (∀ m r, (regKeys m).Nodup → (regKeys (evictReceiver m r)).Nodup)
    ∧ (∀ mode sid ok nr st, (regKeys st.activeReceivers).Nodup →
        (regKeys (getOrCreateSessionReceiver mode sid ok nr st).2.activeReceivers).Nodup)
    ∧ (∀ closeFails mode hasMgr st, (regKeys st.activeReceivers).Nodup →
        (regKeys (processError closeFails mode hasMgr st).activeReceivers).Nodup)
    ∧ (∀ closeFails mode r st, (regKeys st.activeReceivers).Nodup →
        (regKeys (sessionSubscriptionError closeFails mode r st).activeReceivers).Nodup)
    ∧ (∀ closeFails st, (regKeys st.activeReceivers).Nodup →
        (regKeys (closeFunction closeFails st).activeReceivers).Nodup) := by
  refine ⟨?_, ?_, ?_, ?_, ?_, ?_⟩
  · intro m k v h
    exact ⟨nodup_regKeys_mapSet m k v h, count_regKeys_mapSet m k v h⟩
  · intro m r h
    exact nodup_regKeys_evictReceiver m r h
  · intro mode sid ok nr st h
    unfold getOrCreateSessionReceiver
    by_cases hm : mode = "specific"
    · simp only [hm, if_pos rfl]
      rcases hg : mapGet st.activeReceivers sid with _ | r0
      · cases ok with
        | true => simpa using nodup_regKeys_mapSet _ sid st.nextReceiverId h
        | false => simpa using h
      · simpa using h
    · by_cases ha : mode = "any"
      · simp only [hm, ha, if_neg, if_pos rfl]
        rcases nr with _ | sid2
        · simpa using h
        · simpa using nodup_regKeys_mapSet _ sid2 st.nextReceiverId h
      · simp [hm, ha, h]
  · intro closeFails mode hasMgr st h
    by_cases hc : mode ≠ "none" ∧ hasMgr
    · simp [processError, hc, processError_fold, regKeys]
    · simpa [processError, hc] using h
  · intro closeFails mode r st h
    by_cases hc : mode ≠ "none"
    · simp [sessionSubscriptionError, processError, hc, processError_fold, evictReceiver, regKeys]
    · simp only [sessionSubscriptionError]
      have h1 : processError closeFails mode true st = st := by
        simp [processError, hc]
      rw [h1]
      exact nodup_regKeys_evictReceiver _ _ h
  · intro closeFails st h
    unfold closeFunction
    cases hp : closePlainLoop closeFails st.plainReceivers st with
    | error stErr =>
      have := closePlainLoop_registry closeFails st.plainReceivers st stErr (Or.inr hp)
      simpa [this] using h
    | ok st1 =>
      simp [closeFunction_fold, regKeys]

/-- Witness for C8: a concrete insert into a two-entry registry keeps keys
distinct with a single entry under the written key, and the composite
operations preserve the invariant on concrete states. -/
theorem C8_registry_invariant_witness :
    ((regKeys (mapSet [("a", 1), ("b", 2)] "a" 9)).Nodup
      ∧ (regKeys (mapSet [("a", 1), ("b", 2)] "a" 9)).count "a" = 1)
    ∧ (regKeys (getOrCreateSessionReceiver "any" "" true (some "c")
        ⟨[("a", 1), ("b", 2)], 3, 0, 0⟩).2.activeReceivers).Nodup
    ∧ (regKeys (processError (fun _ => false) "any" true
        ⟨[("a", 1), ("b", 2)], []⟩).activeReceivers).Nodup := by
  refine ⟨?_, ?_, ?_⟩
  · exact C8_registry_invariant.1 [("a", 1), ("b", 2)] "a" 9 (by decide)
  · exact C8_registry_invariant.2.2.1 "any" "" true (some "c")
      ⟨[("a", 1), ("b", 2)], 3, 0, 0⟩ (by decide)
  · exact C8_registry_invariant.2.2.2.1 (fun _ => false) "any" true
      ⟨[("a", 1), ("b", 2)], []⟩ (by decide)

/-- C6 (amended): `closeFunction` is total — every close error is caught
inside it, so a second invocation raises no error — and each invocation
closes the plain receivers first, then every still-registered session
receiver (per-entry close failures swallowed: the session-close oracle is
unconstrained), then the client connection. Because the `receivers` array
is a `const` that is never emptied while the registry is cleared, a second
invocation issues no session-receiver close but does call `close()` again
on every plain receiver and on the client. -/
theorem C6_shutdown_behavior :
    (∀ closeFails st, (∀ r ∈ st.plainReceivers, closeFails r = false) →
      closeFunction closeFails st =
        { plainReceivers := st.plainReceivers
          activeReceivers := []
          closeCalls := st.closeCalls ++ st.plainReceivers ++ regReceivers st.activeReceivers
          clientCloseCalls := st.clientCloseCalls + 1 })
    ∧ (∀ closeFails st, (∀ r ∈ st.plainReceivers, closeFails r = false) →
      closeFunction closeFails (closeFunction closeFails st) =
        { plainReceivers := st.plainReceivers
          activeReceivers := []
          closeCalls := st.closeCalls ++ st.plainReceivers ++ regReceivers st.activeReceivers
            ++ st.plainReceivers
          clientCloseCalls := st.clientCloseCalls + 2 }) := by
  have once : ∀ closeFails st, (∀ r ∈ st.plainReceivers, closeFails r = false) →
      closeFunction closeFails st =
        { plainReceivers := st.plainReceivers
          activeReceivers := []
          closeCalls := st.closeCalls ++ st.plainReceivers ++ regReceivers st.activeReceivers
          clientCloseCalls := st.clientCloseCalls + 1 } := by
    intro closeFails st h
    simp only [closeFunction, closePlainLoop_ok closeFails st.plainReceivers st h,
      closeFunction_fold]
  refine ⟨once, ?_⟩
  intro closeFails st h
  rw [once closeFails st h, once closeFails _ (by simpa using h)]
  simp [regReceivers]

/-- Counterexample for C6 as stated: with one plain receiver `0` and one
registered session receiver `1`, calling `closeFunction` twice in a row
issues a second `close()` on plain receiver `0` (and the client), which
the first invocation had already closed — the call sequence is
`[0, 1, 0]`, so receiver `0` is closed twice, not once. -/
theorem C6_counterexample :
    (closeFunction (fun _ => false)
        (closeFunction (fun _ => false) ⟨[0], [("s1", 1)], [], 0⟩)).closeCalls = [0, 1, 0]
    ∧ ((closeFunction (fun _ => false)
        (closeFunction (fun _ => false) ⟨[0], [("s1", 1)], [], 0⟩)).closeCalls.count 0 = 2
      ∧ (2 : Nat) ≠ 1) := by
  refine ⟨rfl, rfl, by decide⟩

/-- Witness for C6 (amended) at a concrete state: ordered close sequence on
the first call, plain-receiver and client duplicates only on the second,
even when the session receiver's close throws. -/
theorem C6_shutdown_behavior_witness :
    closeFunction (fun r => r = 1) ⟨[0], [("s1", 1)], [], 0⟩
      = ⟨[0], [], [0, 1], 1⟩
    ∧ closeFunction (fun r => r = 1)
        (closeFunction (fun r => r = 1) ⟨[0], [("s1", 1)], [], 0⟩)
      = ⟨[0], [], [0, 1, 0], 2⟩ := by
  constructor
  · exact C6_shutdown_behavior.1 (fun r => r = 1) ⟨[0], [("s1", 1)], [], 0⟩ (by decide)
  · exact C6_shutdown_behavior.2 (fun r => r = 1) ⟨[0], [("s1", 1)], [], 0⟩ (by decide)

/-- Normalizing a string body runs exactly the JSON step. -/
lemma normalizeBody_vStr (s : String) :
    normalizeBody (vStr s) = some (normalizeString s) := rfl

/-- Normalizing a buffer body decodes it and runs the JSON step. -/
lemma normalizeBody_vBuf (bytes : List Nat) :
    normalizeBody (vBuf bytes) = some (normalizeString (utf8Decode bytes)) := rfl

/-- C2: body normalization (shared verbatim by the trigger and the
one-shot receive path), read as the pipeline the code implements: a binary
buffer, or a Buffer-wrapper object (`type === 'Buffer'` with an array
`data`), is UTF-8 decoded to a string which then flows through the string
rule — in particular the result is exactly that decoded string whenever it
does not look like JSON; a string whose trimmed form starts with a left
brace becomes the strict-JSON-parse result when parsing succeeds and stays
the unchanged original string when parsing fails (string normalization
never throws); every other scalar or object body passes through
unchanged. -/
theorem C2_normalization_pipeline :
    (∀ bytes, normalizeBody (vBuf bytes) = some (normalizeString (utf8Decode bytes)))
    ∧ (∀ bytes, trimmedStartsWithBrace (utf8Decode bytes) = false →
        normalizeBody (vBuf bytes) = some (vStr (utf8Decode bytes)))
    ∧ (∀ fields es, typeIsBuffer fields = true →
        lookupField fields "data" = some (vArr es) →
        normalizeBody (vObj fields) = some (normalizeString (utf8Decode (es.map toByte))))
    ∧ (∀ s v, trimmedStartsWithBrace s = true → jsonParse s = some v →
        normalizeBody (vStr s) = some v)
    ∧ (∀ s, trimmedStartsWithBrace s = false ∨ jsonParse s = none →
        normalizeBody (vStr s) = some (vStr s))
    ∧ (∀ s, (normalizeBody (vStr s)).isSome = true)
    ∧ ((∀ n : Int, normalizeBody (vNum n) = some (vNum n))
      ∧ (∀ b, normalizeBody (vBool b) = some (vBool b))
      ∧ normalizeBody vNull = some vNull
      ∧ normalizeBody vUndefined = some vUndefined
      ∧ normalizeBody vOther = some vOther
      ∧ (∀ es, normalizeBody (vArr es) = some (vArr es))
      ∧ (∀ fields, typeIsBuffer fields = false →
          normalizeBody (vObj fields) = some (vObj fields))) := by
  refine ⟨fun bytes => normalizeBody_vBuf bytes, ?_, ?_, ?_, ?_, ?_,
    fun _ => rfl, fun _ => rfl, rfl, rfl, rfl, fun _ => rfl, ?_⟩
  · intro bytes h
    rw [normalizeBody_vBuf bytes]
    simp [normalizeString, h]
  · intro fields es ht hd
    simp [normalizeBody, bufferStep, ht, hd]
  · intro s v hb hp
    rw [normalizeBody_vStr s]
    simp [normalizeString, hb, hp]
  · intro s h
    rw [normalizeBody_vStr s]
    rcases h with h | h
    · simp [normalizeString, h]
    · by_cases hb : trimmedStartsWithBrace s
      · simp [normalizeString, hb, h]
      · simp [normalizeString, hb]
  · intro s
    rw [normalizeBody_vStr s]
    rfl
  · intro fields h
    simp [normalizeBody, bufferStep, h]

/-- Witness for C2 at concrete inputs: a wrapper object decodes to
`'hi'`; the JSON-looking string parses to an object; a malformed
JSON-looking string stays itself; scalars pass through. -/
theorem C2_normalization_pipeline_witness :
    normalizeBody (vObj [("type", vStr "Buffer"), ("data", vArr [vNum 104, vNum 105])])
      = some (vStr "hi")
    ∧ normalizeBody (vStr "\x7b\"a\":1\x7d") = some (vObj [("a", vNum 1)])
    ∧ normalizeBody (vStr "\x7b broken") = some (vStr "\x7b broken")
    ∧ normalizeBody (vStr "hello") = some (vStr "hello")
    ∧ normalizeBody (vNum 0) = some (vNum 0) := by
  refine ⟨?_, ?_, ?_, ?_, ?_⟩
  · exact C2_normalization_pipeline.2.2.1 [("type", vStr "Buffer"), ("data", vArr [vNum 104, vNum 105])]
      [vNum 104, vNum 105] rfl rfl
  · exact C2_normalization_pipeline.2.2.2.1 "\x7b\"a\":1\x7d" (vObj [("a", vNum 1)]) rfl rfl
  · exact C2_normalization_pipeline.2.2.2.2.1 "\x7b broken" (Or.inr rfl)
  · exact C2_normalization_pipeline.2.2.2.2.1 "hello" (Or.inl rfl)
  · exact C2_normalization_pipeline.2.2.2.2.2.2.1 0

/-- A successful parse of input whose first non-whitespace character is a
left brace yields an object. -/
lemma parseValueF_brace (f : Nat) (cs : List Char) (v : Value) (rest : List Char)
    (r : List Char) (hr : skipWs cs = lbrace :: r)
    (hp : parseValueF f cs = some (v, rest)) : ∃ fs, v = vObj fs := by
  cases f with
  | zero => simp [parseValueF] at hp
  | succ f =>
    rw [parseValueF, hr] at hp
    rcases hm : parseMembersF f r with _ | ⟨fs, rest2⟩ <;> simp [hm] at hp
    exact ⟨fs, hp.1.symm⟩

/-- A successful `jsonParse` of a string whose trimmed form starts with a
left brace yields an object (as `JSON.parse` does). -/
lemma jsonParse_brace_object (s : String) (v : Value)
    (hb : trimmedStartsWithBrace s = true) (hp : jsonParse s = some v) :
    ∃ fs, v = vObj fs := by
  unfold trimmedStartsWithBrace at hb
  rcases hsk : skipWs s.data with _ | ⟨c, r⟩
  · rw [hsk] at hb
    exact Bool.noConfusion (show false = true from hb)
  · rw [hsk] at hb
    have hc : c = lbrace := by simpa using hb
    subst hc
    unfold jsonParse at hp
    rcases hpv : parseValueF (4 * s.data.length + 16) s.data with _ | ⟨v2, rest⟩
    · rw [hpv] at hp
      simp at hp
    · rw [hpv] at hp
      by_cases he : skipWs rest = []
      · simp [he] at hp
        subst hp
        exact parseValueF_brace _ s.data _ rest r hsk hpv
      · simp [he] at hp

/-- Re-normalizing the output of the JSON step is the identity, provided
that output is not an object carrying the Buffer-wrapper tag. -/
lemma normalizeString_stable (t : String)
    (h : ∀ fs, normalizeString t = vObj fs → typeIsBuffer fs = false) :
    normalizeBody (normalizeString t) = some (normalizeString t) := by
  by_cases hb : trimmedStartsWithBrace t
  · rcases hp : jsonParse t with _ | u
    · have ht : normalizeString t = vStr t := by simp [normalizeString, hb, hp]
      rw [ht, normalizeBody_vStr, ht]
    · obtain ⟨fs, rfl⟩ := jsonParse_brace_object t u hb hp
      have ht : normalizeString t = vObj fs := by simp [normalizeString, hb, hp]
      have hnb : typeIsBuffer fs = false := h fs ht
      rw [ht]
      simp [normalizeBody, bufferStep, hnb]
  · have ht : normalizeString t = vStr t := by simp [normalizeString, hb]
    rw [ht, normalizeBody_vStr]
    rw [show normalizeString t = vStr t from ht]

/-- C9 (amended): normalization is a pure deterministic Lean function, and
it is idempotent on every output that is not a Buffer-wrapper-shaped
object: whenever `normalizeBody X = some v` and `v` does not carry the
`type = 'Buffer'` tag, `normalizeBody v = some v`. (The tagged case is the
genuine exception: a JSON body that parses to a Buffer-wrapper object is
decoded again by a second normalization pass — see the counterexample.) -/
theorem C9_idempotent_off_wrapper :
    ∀ X v, normalizeBody X = some v → hasBufferTag v = false →
      normalizeBody v = some v := by
  intro X v hX hv
  have stringCase : ∀ t, normalizeString t = v → normalizeBody v = some v := by
    intro t ht
    subst ht
    refine normalizeString_stable t ?_
    intro fs hfs
    rw [hfs] at hv
    simpa [hasBufferTag] using hv
  cases X with
  | vStr s =>
    rw [normalizeBody_vStr] at hX
    exact stringCase s (Option.some.inj hX)
  | vBuf bytes =>
    rw [normalizeBody_vBuf] at hX
    exact stringCase _ (Option.some.inj hX)
  | vObj fields =>
    by_cases ht : typeIsBuffer fields
    · simp only [normalizeBody, bufferStep, ht, if_pos] at hX
      rcases hd : lookupField fields "data" with _ | dv
      · rw [hd] at hX
        simp at hX
      · rw [hd] at hX
        cases dv with
        | vArr es => exact stringCase _ (by simpa [normalizeString] using hX)
        | vStr s2 => exact stringCase _ (by simpa [normalizeString] using hX)
        | vBuf bs => exact stringCase _ (by simpa [normalizeString] using hX)
        | vNull => simp at hX
        | vUndefined => simp at hX
        | vBool b => simp at hX
        | vNum n => simp at hX
        | vObj fs2 => simp at hX
        | vOther => simp at hX
    · have : v = vObj fields := by
        simpa [normalizeBody, bufferStep, ht] using hX.symm
      subst this
      simp [normalizeBody, bufferStep, ht]
  | vNull => simp only [normalizeBody, bufferStep] at hX; rw [← Option.some.inj hX]; rfl
  | vUndefined => simp only [normalizeBody, bufferStep] at hX; rw [← Option.some.inj hX]; rfl
  | vBool b => simp only [normalizeBody, bufferStep] at hX; rw [← Option.some.inj hX]; rfl
  | vNum n => simp only [normalizeBody, bufferStep] at hX; rw [← Option.some.inj hX]; rfl
  | vArr es => simp only [normalizeBody, bufferStep] at hX; rw [← Option.some.inj hX]; rfl
  | vOther => simp only [normalizeBody, bufferStep] at hX; rw [← Option.some.inj hX]; rfl

/-- Counterexample for C9 as stated: the string body
`'\x7b"type":"Buffer","data":[72]\x7d'` normalizes to the parsed wrapper
object, but normalizing that object again decodes it to the string `'H'` —
so `normalizeBody ∘ normalizeBody` differs from `normalizeBody` and
re-normalizing this parsed JSON object is not a no-op. -/
theorem C9_counterexample :
    (normalizeBody (vStr "\x7b\"type\":\"Buffer\",\"data\":[72]\x7d")).bind normalizeBody
      ≠ normalizeBody (vStr "\x7b\"type\":\"Buffer\",\"data\":[72]\x7d") := by
  intro h
  have h1 : (normalizeBody (vStr "\x7b\"type\":\"Buffer\",\"data\":[72]\x7d")).bind normalizeBody
      = some (vStr "H") := rfl
  have h2 : normalizeBody (vStr "\x7b\"type\":\"Buffer\",\"data\":[72]\x7d")
      = some (vObj [("type", vStr "Buffer"), ("data", vArr [vNum 72])]) := rfl
  rw [h1, h2] at h
  exact Value.noConfusion (Option.some.inj h)

/-- Witness for C9 (amended): the parsed object from an ordinary JSON body
and a plain string are both fixed points of a second normalization. -/
theorem C9_idempotent_off_wrapper_witness :
    normalizeBody (vObj [("a", vNum 1)]) = some (vObj [("a", vNum 1)])
    ∧ normalizeBody (vStr "hello") = some (vStr "hello") := by
  constructor
  · exact C9_idempotent_off_wrapper (vStr "\x7b\"a\":1\x7d") (vObj [("a", vNum 1)]) rfl rfl
  · exact C9_idempotent_off_wrapper (vStr "hello") (vStr "hello") rfl rfl

/-- Unfolding of the one-shot receive loop: the event trace interleaves a
push and (under peek-lock) a completion per message, every pushed record
counts one message, and all records carry the loop's session info. -/
lemma execReceiveLoop_spec (mode : String) (isS : Bool) (csid : Option String) (cst : Value)
    (msgs : List Msg) (rs : List ExecRecord) (es : List REv)
    (h : execReceiveLoop mode isS csid cst msgs = .ok (rs, es)) :
    es = msgs.flatMap (fun m => REv.push m.messageId ::
        (if mode = "peekLock" then [REv.complete m.messageId] else []))
    ∧ rs.length = msgs.length
    ∧ (∀ rec ∈ rs, rec.sessionInfo = execSessionInfo isS csid cst) := by
  induction msgs generalizing rs es with
  | nil =>
    simp only [execReceiveLoop, Except.ok.injEq, Prod.mk.injEq] at h
    obtain ⟨h1, h2⟩ := h
    subst h1
    subst h2
    simp
  | cons m rest ih =>
    rcases hn : normalizeBody m.body with _ | nb
    · simp [execReceiveLoop, hn] at h
    · rcases hr : execReceiveLoop mode isS csid cst rest with e2 | ⟨rs2, es2⟩
      · simp [execReceiveLoop, hn, hr] at h
      · simp only [execReceiveLoop, hn, hr, Except.ok.injEq, Prod.mk.injEq] at h
        obtain ⟨h1, h2⟩ := h
        obtain ⟨ih1, ih2, ih3⟩ := ih rs2 es2 hr
        subst h1
        subst h2
        refine ⟨by simp [List.flatMap_cons, ih1], by simp [ih2], ?_⟩
        intro rec hrec
        rcases List.mem_cons.mp hrec with rfl | hrec
        · rfl
        · exact ih3 rec hrec

/-- In a push/complete-interleaved trace, completions are counted exactly
by the delivered message ids. -/
lemma flatMap_complete_count (msgs : List Msg) (mid : String) :
    (msgs.flatMap (fun m => [REv.push m.messageId, REv.complete m.messageId])).count
        (REv.complete mid)
      = (msgs.map Msg.messageId).count mid := by
  induction msgs with
  | nil => simp
  | cons m rest ih =>
    simp only [List.flatMap_cons, List.map_cons, List.count_append, List.cons_append,
      List.nil_append, ih]
    by_cases hm : m.messageId = mid
    · subst hm
      simp only [List.count_cons]
      simp [ih]
    · simp only [List.count_cons]
      simp [ih, hm]

/-- In a push/complete-interleaved trace, every completion is preceded by
the push of the same message id. -/
lemma flatMap_push_before_complete (msgs : List Msg) :
    ∀ l1 l2 mid,
      msgs.flatMap (fun m => [REv.push m.messageId, REv.complete m.messageId])
        = l1 ++ REv.complete mid :: l2 →
      REv.push mid ∈ l1 := by
  induction msgs with
  | nil =>
    intro l1 l2 mid h
    exact absurd h.symm (by simp)
  | cons m rest ih =>
    intro l1 l2 mid h
    rw [List.flatMap_cons] at h
    cases l1 with
    | nil => simp at h
    | cons a l1' =>
      simp only [List.cons_append, List.nil_append, List.cons.injEq] at h
      obtain ⟨ha, h⟩ := h
      cases l1' with
      | nil =>
        simp only [List.cons_append, List.nil_append, List.cons.injEq] at h
        obtain ⟨h1, _⟩ := h
        have : mid = m.messageId := by
          simpa using h1.symm
        subst this
        subst ha
        simp
      | cons b l1'' =>
        simp only [List.cons_append, List.cons.injEq] at h
        obtain ⟨hb, h⟩ := h
        have hmem := ih l1'' l2 mid h
        exact List.mem_cons_of_mem a (List.mem_cons_of_mem b hmem)

/-- C1 (amended): in the one-shot `receiveMessages` loop under peek-lock,
the event trace is exactly push-then-complete per delivered message — so
each delivered message id is completed exactly as many times as it was
delivered (exactly once for distinct ids, never twice), and every
completion happens only after the record was pushed to the sink; under
`receiveAndDelete` no completion call occurs. The continuous trigger,
however, never issues an explicit `completeMessage` at all — with
`autoComplete` disabled a delivered message is left uncompleted rather
than completed exactly once. -/
theorem C1_completion_per_delivery :
    (∀ isS csid cst msgs rs es,
      execReceiveLoop "peekLock" isS csid cst msgs = .ok (rs, es) →
      es = msgs.flatMap (fun m => [REv.push m.messageId, REv.complete m.messageId])
      ∧ (∀ mid, es.count (REv.complete mid) = (msgs.map Msg.messageId).count mid)
      ∧ (∀ l1 l2 mid, es = l1 ++ REv.complete mid :: l2 → REv.push mid ∈ l1))
    ∧ (∀ isS csid cst msgs rs es,
      execReceiveLoop "receiveAndDelete" isS csid cst msgs = .ok (rs, es) →
      ∀ mid, REv.complete mid ∉ es)
    ∧ (∀ autoComplete sm en res ra m recv stateRes mid,
      TEv.complete mid ∉ triggerDeliveryEvents autoComplete sm en res ra m recv stateRes) := by
  refine ⟨?_, ?_, ?_⟩
  · intro isS csid cst msgs rs es h
    obtain ⟨h1, _, _⟩ := execReceiveLoop_spec _ _ _ _ _ _ _ h
    have he : es = msgs.flatMap
        (fun m => [REv.push m.messageId, REv.complete m.messageId]) := by
      simpa using h1
    refine ⟨he, ?_, ?_⟩
    · intro mid
      rw [he]
      exact flatMap_complete_count msgs mid
    · intro l1 l2 mid hsplit
      exact flatMap_push_before_complete msgs l1 l2 mid (he ▸ hsplit)
  · intro isS csid cst msgs rs es h mid
    obtain ⟨h1, _, _⟩ := execReceiveLoop_spec _ _ _ _ _ _ _ h
    have he : es = msgs.flatMap (fun m => [REv.push m.messageId]) := by
      simpa using h1
    rw [he]
    intro hmem
    rcases List.mem_flatMap.mp hmem with ⟨m, _, hm⟩
    simp at hm
  · intro autoComplete sm en res ra m recv stateRes mid
    unfold triggerDeliveryEvents processMessage
    rcases hn : normalizeBody m.body with _ | nb
    · simp
    · simp

/-- Counterexample for C1 as stated: a message delivered through the
trigger with `autoComplete` disabled yields zero `completeMessage` calls,
not exactly one. -/
theorem C1_counterexample :
    (triggerDeliveryEvents false "none" "queue1" "queue" "t0"
        ⟨"m1", vStr "hello", none, none, none, 1, none, none⟩
        ReceiverKind.plain (.ok vNull)).count (TEv.complete "m1") = 0
    ∧ (0 : Nat) ≠ 1 := by
  exact ⟨rfl, by decide⟩

/-- Witness for C1 (amended) at a one-message delivery: the trace is
push-then-complete, the completion count matches the delivery count, and
the completion is preceded by its push. -/
theorem C1_completion_per_delivery_witness :
    ([REv.push "m1", REv.complete "m1"].count (REv.complete "m1")
      = (["m1"] : List String).count "m1")
    ∧ REv.push "m1" ∈ [REv.push "m1"]
    ∧ TEv.complete "m1" ∉ triggerDeliveryEvents false "none" "queue1" "queue" "t0"
        ⟨"m1", vStr "hello", none, none, none, 1, none, none⟩
        ReceiverKind.plain (.ok vNull) := by
  refine ⟨?_, ?_, ?_⟩
  · exact (C1_completion_per_delivery.1 false none vNull
      [⟨"m1", vStr "hello", none, none, none, 1, none, none⟩] _ _ rfl).2.1 "m1"
  · exact (C1_completion_per_delivery.1 false none vNull
      [⟨"m1", vStr "hello", none, none, none, 1, none, none⟩] _ _ rfl).2.2
      [REv.push "m1"] [] "m1" rfl
  · exact C1_completion_per_delivery.2.2 false "none" "queue1" "queue" "t0"
      ⟨"m1", vStr "hello", none, none, none, 1, none, none⟩
      ReceiverKind.plain (.ok vNull) "m1"

/-- C7: a failed `getSessionState` read degrades the delivered record to
`sessionState: null` without affecting delivery or completion. In the
trigger, the record built with a failed read carries
`sessionInfo.sessionState = null` and is emitted exactly once, and it is
identical to the success-case record except for that one field. In the
one-shot peek-lock loop, with the pre-loop state read failed (caught and
replaced by `null`), every record still carries the receiver's session id
with `sessionState = null`, and the trace still pushes and then completes
every delivered message. -/
theorem C7_state_read_degraded :
    (∀ sm en res ra m sid rec evs, sm ≠ "none" →
      processMessage sm en res ra m (.session sid) (.error ()) = .ok (rec, evs) →
      rec.sessionInfo = some ⟨sid, vNull, true⟩ ∧ evs = [TEv.emit m.messageId])
    ∧ (∀ sm en res ra m sid v rec1 evs1 rec2 evs2, sm ≠ "none" →
      processMessage sm en res ra m (.session sid) (.ok v) = .ok (rec1, evs1) →
      processMessage sm en res ra m (.session sid) (.error ()) = .ok (rec2, evs2) →
      evs2 = evs1 ∧ rec2 = { rec1 with sessionInfo := some ⟨sid, vNull, true⟩ })
    ∧ (∀ sid msgs rs es, sid ≠ "" →
      execReceiveLoop "peekLock" true (some sid) (execSessionStateRead (.error ())) msgs
        = .ok (rs, es) →
      (∀ rec ∈ rs, rec.sessionInfo = some ⟨sid, vNull, true⟩)
      ∧ es = msgs.flatMap (fun m => [REv.push m.messageId, REv.complete m.messageId])) := by
  refine ⟨?_, ?_, ?_⟩
  · intro sm en res ra m sid rec evs hsm hp
    rcases hn : normalizeBody m.body with _ | nb
    · simp [processMessage, hn] at hp
    · simp only [processMessage, hn, hsm, if_neg, Except.ok.injEq, Prod.mk.injEq] at hp
      obtain ⟨h1, h2⟩ := hp
      subst h1
      subst h2
      constructor
      · simp [hsm, execSessionStateRead]
      · rfl
  · intro sm en res ra m sid v rec1 evs1 rec2 evs2 hsm hp1 hp2
    rcases hn : normalizeBody m.body with _ | nb
    · simp [processMessage, hn] at hp1
    · simp only [processMessage, hn, Except.ok.injEq, Prod.mk.injEq] at hp1 hp2
      obtain ⟨h1, h2⟩ := hp1
      obtain ⟨h3, h4⟩ := hp2
      subst h1
      subst h2
      subst h3
      subst h4
      constructor
      · rfl
      · simp [hsm, execSessionStateRead]
  · intro sid msgs rs es hsid h
    obtain ⟨h1, _, h3⟩ := execReceiveLoop_spec _ _ _ _ _ _ _ h
    constructor
    · intro rec hrec
      rw [h3 rec hrec]
      simp [execSessionInfo, hsid, execSessionStateRead]
    · simpa using h1

/-- Witness for C7 at a concrete session delivery with a failed state
read: the trigger record carries `sessionState = null` and one emission;
the one-shot loop still completes the message. -/
theorem C7_state_read_degraded_witness :
    (processMessage "specific" "q1" "queue" "t0"
        ⟨"m1", vStr "hello", none, none, none, 1, none, some "S1"⟩
        (.session "S1") (.error ())
      = .ok (⟨"m1", vStr "hello", none, none, [], 1, none, some "S1", "t0", "q1", "queue",
              "specific", some ⟨"S1", vNull, true⟩⟩, [TEv.emit "m1"]))
    ∧ ((⟨"m1", vStr "hello", none, none, [], 1, none, some "S1", "t0", "q1", "queue",
          "specific", some ⟨"S1", vNull, true⟩⟩ : TriggerRecord).sessionInfo
        = some ⟨"S1", vNull, true⟩)
    ∧ (∀ rec ∈ [(⟨"m1", vStr "hello", none, none, none, 1, none, some "S1",
          some ⟨"S1", vNull, true⟩⟩ : ExecRecord)],
        rec.sessionInfo = some ⟨"S1", vNull, true⟩) := by
  refine ⟨rfl, ?_, ?_⟩
  · exact (C7_state_read_degraded.1 "specific" "q1" "queue" "t0"
      ⟨"m1", vStr "hello", none, none, none, 1, none, some "S1"⟩ "S1" _ _
      (by decide) rfl).1
  · exact (C7_state_read_degraded.2.2 "S1"
      [⟨"m1", vStr "hello", none, none, none, 1, none, some "S1"⟩] _ _
      (by decide) rfl).1

/-- C5 evidence, evaluated at the failing scenario: in specific-session
mode the `startSessionHandling` loop retries `acceptSession('S1')` after
each acquisition failure with a fixed 5000 ms delay and never issues an
any-session acceptance; but as soon as one acceptance succeeds and the
subscription is installed, the loop `break`s — its complete trace ends at
`exited`, so no re-acceptance attempt can ever follow a subscription error
raised after installation (the error path only closes and evicts
receivers). -/
theorem C5_specific_mode_trace :
    startSessionHandling "specific" "S1" (fun k => 2 ≤ k) 10 0
      = [SEv.acceptSpecific "S1" false, SEv.delayMs 5000,
         SEv.acceptSpecific "S1" false, SEv.delayMs 5000,
         SEv.acceptSpecific "S1" true, SEv.installed, SEv.exited]
    ∧ (∀ f, startSessionHandling "specific" "S1" (fun _ => true) (f + 1) 0
      = [SEv.acceptSpecific "S1" true, SEv.installed, SEv.exited]) := by
  exact ⟨rfl, fun f => rfl⟩
